import Mathlib

/-!
Verification of the Dawrak ticket-queue core against its source.

The shallow embedding below translates the queue state and operations of
the repository (a Vue/Supabase app).  The shared `queues` row has fields
`current_number`, `last_issued_number`, `name` (the string `PAUSED`
encodes the pause flag, see `togglePause` in `DisplayView.vue`) and
`last_called_at`; the `tickets` table rows carry `(ticket_number, status)`;
the staff console additionally keeps a local `cancelledTickets` array
(localStorage `dawrak-cancelled-tickets`) which drives the serving scan.

Timestamps are modelled as abstract integers supplied by the caller
(`now`), since only equality/propagation of the timestamp matters here.
-/

namespace Dawrak

/-- Ticket status strings used by the code: `waiting` (insert sites),
`called` (`finishService`), `cancelled` (`skip`); `serving` appears in the
schema/spec and in one read site but is shown below never to be written. -/
inductive TStatus where
  | waiting
  | serving
  | called
  | cancelled
deriving DecidableEq

/-- Combined state: the shared `queues` row plus the `tickets` table and the
staff console local `cancelledTickets` array.  Local mirrors
(`currentNumber`, `lastIssued` refs) are kept in sync with the row by the
code after every write and on every realtime event, so they are identified
with the row fields here. -/
structure QState where
  current_number : Int
  last_issued_number : Int
  name : String
  last_called_at : Option Int
  tickets : List (Int × TStatus)
  cancelledTickets : List Int
deriving DecidableEq

/-- Pause flag as the code reads it: `isPaused.value = data.name === 'PAUSED'`
(`DisplayView.vue` line 299 and the customer view). -/
def isPausedQ (s : QState) : Bool :=
  s.name = "PAUSED"

/-- Invariant claimed by the spec: serving never races ahead of issuance. -/
def inv (s : QState) : Prop :=
  s.current_number ≤ s.last_issued_number

instance (s : QState) : Decidable (inv s) := by
  unfold inv; infer_instance

/-- One bounded pass of the `while` loop in `nextNumber`
(`DisplayView.vue` line 308):
`while(cancelledTickets.value.includes(next) && next <= lastIssued.value) { next++ }`.
The fuel argument is instantiated by `scanNext` with the exact iteration
bound `last + 1 - next`, so exhausting it coincides with the loop guard
`next <= last` turning false. -/
def scanNextFuel (c : List Int) (last : Int) : Nat → Int → Int
  | 0, next => next
  | f + 1, next => if next ∈ c ∧ next ≤ last then scanNextFuel c last f (next + 1) else next

/-- The value of `next` after the skip loop of `nextNumber`, starting from
a given value (the code starts from `current_number + 1`). -/
def scanNext (c : List Int) (last next : Int) : Int :=
  scanNextFuel c last (last + 1 - next).toNat next

/-- Result of the staff advance operation: either a new served number or
the `no_one_waiting` toast path, which leaves the state untouched. -/
inductive AdvanceResult where
  | advanced (n : Int)
  | noneWaiting
deriving DecidableEq

/-- `nextNumber` from `DisplayView.vue` lines 303-347: compute `next` by the
skip loop from `current_number + 1`; if it exceeds `last_issued_number`,
report nobody waiting and change nothing; otherwise one row update sets
`current_number = next` and `last_called_at = now`. -/
def nextNumber (s : QState) (now : Int) : AdvanceResult × QState :=
  let next := scanNext s.cancelledTickets s.last_issued_number (s.current_number + 1)
  if next > s.last_issued_number then
    (.noneWaiting, s)
  else
    (.advanced next, { s with current_number := next, last_called_at := some now })

/-- The ticket-table update `update({ status }).eq(ticket_number, n)`:
every row whose number equals `n` gets the new status. -/
def setStatus (ts : List (Int × TStatus)) (n : Int) (st : TStatus) : List (Int × TStatus) :=
  ts.map fun p => if p.1 = n then (p.1, st) else p

/-- `finishService` from `DisplayView.vue` lines 349-371: guarded by
`currentNumber.value === 0`; otherwise marks the row of the current number
as `called`. -/
def finishService (s : QState) : QState :=
  if s.current_number = 0 then s
  else { s with tickets := setStatus s.tickets s.current_number .called }

/-- `skip` from `DisplayView.vue` lines 426-440: guarded by
`currentNumber.value === 0`; otherwise pushes the current number onto
`cancelledTickets`, marks its row `cancelled`, then calls `nextNumber`. -/
def skip (s : QState) (now : Int) : QState :=
  if s.current_number = 0 then s
  else
    let s1 := { s with
      cancelledTickets := s.cancelledTickets ++ [s.current_number],
      tickets := setStatus s.tickets s.current_number .cancelled }
    (nextNumber s1 now).2

/-- `togglePause` from `DisplayView.vue` lines 442-459: flips the row
`name` between `PAUSED` and `ACTIVE`. -/
def togglePause (s : QState) : QState :=
  { s with name := if isPausedQ s then "ACTIVE" else "PAUSED" }

/-- `recall` from `DisplayView.vue` lines 408-424: returns after the toast
when `currentNumber.value === 0`; otherwise a row update sets only
`last_called_at`.  (The source name `recall` is a reserved word here.) -/
def recallTouch (s : QState) (now : Int) : QState :=
  if s.current_number = 0 then s
  else { s with last_called_at := some now }

/-- `finishQueue` from `DisplayView.vue` lines 461-493: a single row update
sets `current_number = 0`, `last_issued_number = 0`, `last_called_at = null`
and `name = ACTIVE`; locally the `cancelledTickets` array is cleared. -/
def finishQueue (s : QState) : QState :=
  { s with
    current_number := 0,
    last_issued_number := 0,
    last_called_at := none,
    name := "ACTIVE",
    cancelledTickets := [] }

/-- `nextNumber` from `AdminView.vue` lines 38-56: an optimistic update
writing `current_number + 1` with no guard in the function itself (the
template disables the button when `currentNumber >= lastIssued`). -/
def adminNextNumber (s : QState) : QState :=
  { s with current_number := s.current_number + 1 }

/-- `resetQueue` from `AdminView.vue` lines 58-67: a single row update
setting only the two counters to 0. -/
def adminResetQueue (s : QState) : QState :=
  { s with current_number := 0, last_issued_number := 0 }

/-- Modelled from the spec: the `next_ticket` stored SQL function is not in
the repository (only its declaration in `src/types/supabase.ts` and its
call sites are).  Per the spec it atomically increments
`last_issued_number` by exactly 1 and returns the new value. -/
def nextTicketRpc (last : Int) : Int :=
  last + 1

/-- Observable outcome of the customer `issueTicket` call in the customer
view (unnamed part, lines 245-295): a ticket number, a silent early return
(the `isPaused` guard), or the catch path after an rpc error. -/
inductive IssueOutcome where
  | issued (n : Int)
  | silentNoop
  | errored
deriving DecidableEq

/-- `issueTicket` from the customer view (unnamed part, lines 245-295):
the entry guard `if (... || isPaused.value) return` produces a silent
no-op; otherwise the `next_ticket` rpc runs (an rpc error is thrown and
caught: state unchanged), then the ticket row insert - whose result the
code does not check, so an insert fault (`insertOk = false`) leaves the
counter advanced with no row, and the call still reports the number. -/
def issueTicket (s : QState) (rpcOk insertOk : Bool) : IssueOutcome × QState :=
  if isPausedQ s then (.silentNoop, s)
  else if ¬rpcOk then (.errored, s)
  else
    let n := nextTicketRpc s.last_issued_number
    let s1 := { s with last_issued_number := n }
    let s2 := if insertOk then { s1 with tickets := s1.tickets ++ [(n, .waiting)] } else s1
    (.issued n, s2)

/-- `peopleAheadCount` from the customer view (unnamed part, lines 320-324):
`tNum === null ? 0 : Math.max(0, tNum - currentNumber.value - 1)`. -/
def peopleAheadCount (myTicket : Option Int) (current : Int) : Int :=
  match myTicket with
  | none => 0
  | some t => max 0 (t - current - 1)

/-- `peopleAhead` from the simple customer view (unnamed part, lines 79-82):
`if (!myTicket.value) return 0` - a truthiness test, so ticket number 0
also short-circuits - else `Math.max(0, myTicket.value - currentNumber.value - 1)`. -/
def peopleAhead (myTicket : Option Int) (current : Int) : Int :=
  match myTicket with
  | none => 0
  | some t => if t = 0 then 0 else max 0 (t - current - 1)

/-- The sequence of numbers returned by a series of atomic `next_ticket`
calls starting from a given counter value: any concurrent execution of the
atomic rpc is one such serialization. -/
def runIssues (last : Int) : Nat → List Int
  | 0 => []
  | k + 1 => nextTicketRpc last :: runIssues (nextTicketRpc last) k

/-- All queue operations of the app, for invariant-preservation statements. -/
inductive Op where
  | issue (rpcOk insertOk : Bool)
  | advance (now : Int)
  | finishServ
  | skipOp (now : Int)
  | pauseToggle
  | reset
  | recallOp (now : Int)
  | adminAdvance
  | adminReset
deriving DecidableEq

/-- State after running one operation. -/
def applyOp (o : Op) (s : QState) : QState :=
  match o with
  | .issue r i => (issueTicket s r i).2
  | .advance now => (nextNumber s now).2
  | .finishServ => finishService s
  | .skipOp now => skip s now
  | .pauseToggle => togglePause s
  | .reset => finishQueue s
  | .recallOp now => recallTouch s now
  | .adminAdvance => adminNextNumber s
  | .adminReset => adminResetQueue s

/-! Helper lemmas about the skip loop and the operations. -/

/-- Characterization of the bounded skip loop: with enough fuel it moves
forward, every number it stepped over is in the cancelled list, and if it
stops at a number within the issued range that number is not cancelled. -/
theorem scanNextFuel_spec (c : List Int) (last : Int) (f : Nat) :
    ∀ next : Int, (last + 1 - next).toNat ≤ f →
      next ≤ scanNextFuel c last f next ∧
      (∀ m, next ≤ m → m < scanNextFuel c last f next → m ∈ c) ∧
      (scanNextFuel c last f next ≤ last → scanNextFuel c last f next ∉ c) := by
  induction f with
  | zero =>
    intro next hf
    simp only [scanNextFuel]
    refine ⟨le_refl _, ?_, ?_⟩
    · intro m h1 h2; exact absurd h2 (by omega)
    · intro hle; exact absurd hle (by omega)
  | succ f ih =>
    intro next hf
    by_cases hcond : next ∈ c ∧ next ≤ last
    · simp only [scanNextFuel, if_pos hcond]
      obtain ⟨IH1, IH2, IH3⟩ := ih (next + 1) (by omega)
      refine ⟨by omega, ?_, IH3⟩
      intro m hm1 hm2
      rcases eq_or_lt_of_le hm1 with hm | hm
      · exact hm ▸ hcond.1
      · exact IH2 m (by omega) hm2
    · simp only [scanNextFuel, if_neg hcond]
      refine ⟨le_refl _, ?_, ?_⟩
      · intro m h1 h2; exact absurd h2 (by omega)
      · intro hle hmem; exact hcond ⟨hmem, hle⟩

/-- Characterization of the value of `next` after the skip loop. -/
theorem scanNext_spec (c : List Int) (last next : Int) :
    next ≤ scanNext c last next ∧
    (∀ m, next ≤ m → m < scanNext c last next → m ∈ c) ∧
    (scanNext c last next ≤ last → scanNext c last next ∉ c) :=
  scanNextFuel_spec c last _ next (le_refl _)

/-- The staff advance operation never touches the tickets table. -/
theorem nextNumber_tickets (s : QState) (now : Int) :
    ((nextNumber s now).2).tickets = s.tickets := by
  simp only [nextNumber]
  split <;> rfl

/-- The staff advance operation never touches the cancelled list. -/
theorem nextNumber_cancelled (s : QState) (now : Int) :
    ((nextNumber s now).2).cancelledTickets = s.cancelledTickets := by
  simp only [nextNumber]
  split <;> rfl

/-- The staff advance operation preserves the counter invariant: it only
moves `current_number` to the scan result when that result is within
`last_issued_number`. -/
theorem nextNumber_inv (s : QState) (now : Int) (h : inv s) :
    inv ((nextNumber s now).2) := by
  simp only [nextNumber]
  split
  · exact h
  · simp only [inv] at *
    omega

/-- A status produced by a ticket-table update is either the written status
or one already present. -/
theorem setStatus_snd_mem (ts : List (Int × TStatus)) (n : Int) (st : TStatus) :
    ∀ q ∈ (setStatus ts n st).map Prod.snd, q = st ∨ q ∈ ts.map Prod.snd := by
  intro q hq
  simp only [setStatus, List.map_map, List.mem_map, Function.comp] at hq
  obtain ⟨p, hp, hpq⟩ := hq
  by_cases hn : p.1 = n
  · simp [hn] at hpq
    exact Or.inl hpq.symm
  · simp [hn] at hpq
    exact Or.inr (List.mem_map.mpr ⟨p, hp, hpq⟩)

/-- Membership in the serialized issuance outputs: exactly the next `k`
integers after the starting counter value. -/
theorem runIssues_mem (k : Nat) : ∀ (last n : Int),
    n ∈ runIssues last k ↔ last < n ∧ n ≤ last + k := by
  induction k with
  | zero => intro last n; simp [runIssues]
  | succ k ih =>
    intro last n
    simp only [runIssues, nextTicketRpc, List.mem_cons, ih]
    constructor
    · rintro (rfl | ⟨h1, h2⟩) <;> omega
    · intro h
      by_cases hn : n = last + 1
      · exact Or.inl hn
      · exact Or.inr (by omega)

/-- The serialized issuance outputs are pairwise distinct. -/
theorem runIssues_nodup (k : Nat) : ∀ last : Int, (runIssues last k).Nodup := by
  induction k with
  | zero => intro last; simp [runIssues]
  | succ k ih =>
    intro last
    simp only [runIssues, List.nodup_cons]
    refine ⟨?_, ih _⟩
    intro hmem
    have := (runIssues_mem k _ _).1 hmem
    simp only [nextTicketRpc] at this
    omega

/-- The serialized issuance outputs have one entry per call. -/
theorem runIssues_length (k : Nat) : ∀ last : Int, (runIssues last k).length = k := by
  induction k with
  | zero => intro last; rfl
  | succ k ih => intro last; simp [runIssues, ih]

/-! Claim theorems. -/

/-- C1: every atomic `next_ticket` call increments the counter by exactly 1
and returns the new value, and across any serialization of concurrent calls
(the rpc is a single atomic storage-level increment, so every concurrent
execution linearizes to such a serialization) no two calls return the same
number; the client `issueTicket` call surfaces exactly that value. -/
theorem C1_issue_uniqueness (last : Int) (k : Nat) :
    (runIssues last k).Nodup ∧
    (runIssues last k).length = k ∧
    (∀ n, n ∈ runIssues last k ↔ last < n ∧ n ≤ last + k) ∧
    nextTicketRpc last = last + 1 ∧
    (∀ s : QState, ∀ insertOk : Bool, isPausedQ s = false →
      (issueTicket s true insertOk).1 = IssueOutcome.issued (s.last_issued_number + 1) ∧
      (issueTicket s true insertOk).2.last_issued_number = s.last_issued_number + 1) := by
  refine ⟨runIssues_nodup k last, runIssues_length k last, runIssues_mem k last, rfl, ?_⟩
  intro s insertOk hp
  cases insertOk <;> simp [issueTicket, hp, nextTicketRpc]

/-- C1 witness: three calls from a fresh queue produce distinct numbers, and
a concrete unpaused `issueTicket` returns the incremented counter. -/
theorem C1_issue_uniqueness_witness :
    (runIssues 0 3).Nodup ∧
    (issueTicket ⟨0, 0, "ACTIVE", none, [], []⟩ true true).1 = IssueOutcome.issued (0 + 1) :=
  ⟨(C1_issue_uniqueness 0 3).1,
    ((C1_issue_uniqueness 0 3).2.2.2.2 ⟨0, 0, "ACTIVE", none, [], []⟩ true (by decide)).1⟩

/-- C2 counterexample: the claim quantifies over every operation and cites
`AdminView.vue` `nextNumber` (lines 38-56); that function is an unguarded
optimistic write of `current_number + 1`, so from the reachable initial
state `current = last_issued = 0` it sets `current_number = 1 > 0 =
last_issued_number`, violating the invariant. -/
theorem C2_counterexample :
    inv ⟨0, 0, "ACTIVE", none, [], []⟩ ∧
    ¬ inv (applyOp Op.adminAdvance ⟨0, 0, "ACTIVE", none, [], []⟩) := by
  decide

/-- C2 amended: every operation preserves `current_number ≤
last_issued_number`, except that the admin advance needs the precondition
`current_number < last_issued_number` (which its UI enforces by disabling
the button); under that precondition it is preserved too. -/
theorem C2_invariant_preservation (o : Op) (s : QState) (h : inv s)
    (hadm : o = Op.adminAdvance → s.current_number < s.last_issued_number) :
    inv (applyOp o s) := by
  cases o with
  | issue r i =>
    simp only [applyOp, issueTicket]
    split
    · exact h
    · split
      · exact h
      · cases i <;> simp [inv, nextTicketRpc] at h ⊢ <;> omega
  | advance m => exact nextNumber_inv s m h
  | finishServ =>
    simp only [applyOp, finishService]
    split
    · exact h
    · exact h
  | skipOp m =>
    simp only [applyOp, skip]
    split
    · exact h
    · exact nextNumber_inv _ m h
  | pauseToggle => exact h
  | reset => simp [applyOp, finishQueue, inv]
  | recallOp m =>
    simp only [applyOp, recallTouch]
    split
    · exact h
    · exact h
  | adminAdvance =>
    have hlt := hadm rfl
    simp only [applyOp, adminNextNumber, inv] at *
    omega
  | adminReset => simp [applyOp, adminResetQueue, inv]

/-- C2 witness: a concrete advance from `current = 1, last_issued = 2`
keeps the invariant. -/
theorem C2_invariant_preservation_witness :
    inv (applyOp (Op.advance 5) ⟨1, 2, "ACTIVE", none, [], []⟩) :=
  C2_invariant_preservation (Op.advance 5) ⟨1, 2, "ACTIVE", none, [], []⟩
    (by decide) (by decide)

/-- C3 counterexample: with the queue paused, the customer `issueTicket`
returns through the entry guard as a silent no-op; it does not surface any
error (the only error path in the function is the rpc catch), contradicting
"fails with the named error QueuePaused". -/
theorem C3_counterexample :
    issueTicket ⟨0, 0, "PAUSED", none, [], []⟩ true true =
      (IssueOutcome.silentNoop, ⟨0, 0, "PAUSED", none, [], []⟩) ∧
    IssueOutcome.silentNoop ≠ IssueOutcome.errored := by
  decide

/-- C3 amended: while the queue is paused, every `issueTicket` call returns
immediately as a silent no-op - no error is surfaced - and leaves
`last_issued_number` and all other state unchanged. -/
theorem C3_pause_noop (s : QState) (rpcOk insertOk : Bool) (h : isPausedQ s = true) :
    issueTicket s rpcOk insertOk = (IssueOutcome.silentNoop, s) := by
  simp [issueTicket, h]

/-- C3 witness: the amended claim at a concrete paused state. -/
theorem C3_pause_noop_witness :
    issueTicket ⟨4, 7, "PAUSED", some 3, [], []⟩ false true =
      (IssueOutcome.silentNoop, ⟨4, 7, "PAUSED", some 3, [], []⟩) :=
  C3_pause_noop ⟨4, 7, "PAUSED", some 3, [], []⟩ false true (by decide)

/-- C4 counterexample: the scan consults only the local cancelled list,
never the ticket rows.  With `current = 0`, `last_issued = 2` and the only
waiting ticket being number 2 (number 1 is a ghost: issued but its row
insert failed), the advance serves number 1, which is neither a waiting
ticket nor `last_issued_number` - contradicting "stopping at the first
waiting ticket or at last_issued_number". -/
theorem C4_counterexample :
    (nextNumber ⟨0, 2, "ACTIVE", none, [(2, TStatus.waiting)], []⟩ 7).1 =
      AdvanceResult.advanced 1 ∧
    (1, TStatus.waiting) ∉ (⟨0, 2, "ACTIVE", none, [(2, TStatus.waiting)], []⟩ : QState).tickets ∧
    (1 : Int) ≠ (⟨0, 2, "ACTIVE", none, [(2, TStatus.waiting)], []⟩ : QState).last_issued_number := by
  decide

/-- C4 amended: `nextNumber` starts at `current_number + 1`, skips exactly
the numbers in the local cancelled list, and stops at the first number not
in that list (whether or not a waiting ticket row exists for it), provided
that number does not exceed `last_issued_number`; the spec scenario with
tickets 1 waiting, 2 cancelled, 3 waiting and `current = 0` yields 1 and
then 3. -/
theorem C4_advance_scan (s : QState) (now : Int)
    (h : scanNext s.cancelledTickets s.last_issued_number (s.current_number + 1) ≤
      s.last_issued_number) :
    (∃ n, nextNumber s now =
        (AdvanceResult.advanced n, { s with current_number := n, last_called_at := some now }) ∧
      s.current_number < n ∧ n ≤ s.last_issued_number ∧ n ∉ s.cancelledTickets ∧
      (∀ m, s.current_number < m → m < n → m ∈ s.cancelledTickets)) ∧
    (nextNumber ⟨0, 3, "ACTIVE", none,
        [(1, TStatus.waiting), (2, TStatus.cancelled), (3, TStatus.waiting)], [2]⟩ 7).1 =
      AdvanceResult.advanced 1 ∧
    (nextNumber (nextNumber ⟨0, 3, "ACTIVE", none,
        [(1, TStatus.waiting), (2, TStatus.cancelled), (3, TStatus.waiting)], [2]⟩ 7).2 8).1 =
      AdvanceResult.advanced 3 := by
  obtain ⟨h1, h2, h3⟩ :=
    scanNext_spec s.cancelledTickets s.last_issued_number (s.current_number + 1)
  refine ⟨⟨scanNext s.cancelledTickets s.last_issued_number (s.current_number + 1),
    ?_, by omega, h, h3 h, ?_⟩, by decide, by decide⟩
  · simp only [nextNumber]
    rw [if_neg (by omega)]
  · intro m hm1 hm2
    exact h2 m (by omega) hm2

/-- C4 witness: the amended claim applied at the spec scenario state. -/
theorem C4_advance_scan_witness :
    (nextNumber ⟨0, 3, "ACTIVE", none,
        [(1, TStatus.waiting), (2, TStatus.cancelled), (3, TStatus.waiting)], [2]⟩ 7).1 =
      AdvanceResult.advanced 1 :=
  (C4_advance_scan ⟨0, 3, "ACTIVE", none,
      [(1, TStatus.waiting), (2, TStatus.cancelled), (3, TStatus.waiting)], [2]⟩ 7
      (by decide)).2.1

/-- C5: when the skip scan passes `last_issued_number` (in particular when
`current = last_issued` and nothing is cancelled), `nextNumber` reports the
distinct nobody-waiting result - a constructor different from every
successful advance - and returns the state completely unchanged. -/
theorem C5_none_waiting (s : QState) (now : Int)
    (h : s.last_issued_number <
      scanNext s.cancelledTickets s.last_issued_number (s.current_number + 1)) :
    nextNumber s now = (AdvanceResult.noneWaiting, s) ∧
    (∀ n, AdvanceResult.noneWaiting ≠ AdvanceResult.advanced n) := by
  refine ⟨?_, fun n => by simp⟩
  simp only [nextNumber]
  rw [if_pos h]

/-- C5 witness: the spec scenario `current = 3, last_issued = 3`. -/
theorem C5_none_waiting_witness :
    nextNumber ⟨3, 3, "ACTIVE", none, [(3, TStatus.waiting)], []⟩ 7 =
      (AdvanceResult.noneWaiting, ⟨3, 3, "ACTIVE", none, [(3, TStatus.waiting)], []⟩) :=
  (C5_none_waiting ⟨3, 3, "ACTIVE", none, [(3, TStatus.waiting)], []⟩ 7 (by decide)).1

/-- C6 counterexample: the claim cites `AdminView.vue` `resetQueue` (lines
58-67), which updates only the two counters; from a paused state with a
recorded timestamp, that reset leaves the pause flag set and the
`last_called_at` timestamp in place, contradicting "clears the pause flag
and last-called timestamp". -/
theorem C6_counterexample :
    isPausedQ (adminResetQueue ⟨5, 5, "PAUSED", some 10, [], []⟩) = true ∧
    (adminResetQueue ⟨5, 5, "PAUSED", some 10, [], []⟩).last_called_at = some 10 := by
  decide

/-- C6 amended: the staff-console reset (`finishQueue`) zeroes both counters,
clears the pause flag and the timestamp in one atomic row update (a single
state transition here, so no observer sees one counter reset without the
other); the admin reset zeroes both counters in one atomic update but leaves
the pause flag and timestamp unchanged. -/
theorem C6_reset_atomic (s : QState) :
    (finishQueue s).current_number = 0 ∧
    (finishQueue s).last_issued_number = 0 ∧
    isPausedQ (finishQueue s) = false ∧
    (finishQueue s).last_called_at = none ∧
    (finishQueue s).cancelledTickets = [] ∧
    (finishQueue s).tickets = s.tickets ∧
    (adminResetQueue s).current_number = 0 ∧
    (adminResetQueue s).last_issued_number = 0 ∧
    (adminResetQueue s).name = s.name ∧
    (adminResetQueue s).last_called_at = s.last_called_at ∧
    (adminResetQueue s).tickets = s.tickets := by
  simp [finishQueue, adminResetQueue, isPausedQ]

/-- C7: if the atomic increment succeeds but the ticket-row insert fails
(whose result the code never checks), `last_issued_number` stays advanced
by exactly 1 - never rolled back - no row is recorded, the invariant
`current_number ≤ last_issued_number` still holds, and the ghost number is
never handed out again: the next successful call returns the next number. -/
theorem C7_ghost_number (s : QState) (h1 : isPausedQ s = false) (h2 : inv s) :
    (issueTicket s true false).2.last_issued_number = s.last_issued_number + 1 ∧
    (issueTicket s true false).2.current_number = s.current_number ∧
    (issueTicket s true false).2.tickets = s.tickets ∧
    (issueTicket s true false).1 = IssueOutcome.issued (s.last_issued_number + 1) ∧
    inv (issueTicket s true false).2 ∧
    (issueTicket (issueTicket s true false).2 true true).1 =
      IssueOutcome.issued (s.last_issued_number + 1 + 1) := by
  simp only [inv] at h2
  have hname : s.name ≠ "PAUSED" := by simpa [isPausedQ] using h1
  simp [issueTicket, nextTicketRpc, inv, h1, isPausedQ, hname]
  omega

/-- C7 witness: a concrete unpaused state with a failing insert. -/
theorem C7_ghost_number_witness :
    (issueTicket ⟨0, 0, "ACTIVE", none, [], []⟩ true false).2.last_issued_number = 0 + 1 :=
  (C7_ghost_number ⟨0, 0, "ACTIVE", none, [], []⟩ (by decide) (by decide)).1

/-- C8 counterexample: from `current = last_issued = 3` with ticket 3
waiting, `skip` marks ticket 3 cancelled (and cannot advance, so
`current_number` stays 3); the staff done-button (`finishService`) then
marks that same cancelled ticket `called` - a cancelled-to-called
transition, contradicting "called and cancelled are terminal". -/
theorem C8_counterexample :
    (skip ⟨3, 3, "ACTIVE", none, [(3, TStatus.waiting)], []⟩ 0).tickets =
      [(3, TStatus.cancelled)] ∧
    (finishService (skip ⟨3, 3, "ACTIVE", none, [(3, TStatus.waiting)], []⟩ 0)).tickets =
      [(3, TStatus.called)] := by
  decide

/-- C8 amended: the operations write only the statuses `called`
(`finishService`, applied to the row of the current number regardless of its
previous status - so cancelled-to-called can occur) and `cancelled` (`skip`,
likewise applied to the current row) besides the `waiting` status of newly
inserted rows; the `serving` status is never written by any operation; and a
number in the cancelled list is never selected again by the advance scan. -/
theorem C8_status_transitions (o : Op) (s : QState) (now : Int)
    (h : TStatus.serving ∉ s.tickets.map Prod.snd) :
    TStatus.serving ∉ (applyOp o s).tickets.map Prod.snd ∧
    (s.current_number ≠ 0 →
      (finishService s).tickets = setStatus s.tickets s.current_number TStatus.called) ∧
    (s.current_number ≠ 0 →
      (skip s now).tickets = setStatus s.tickets s.current_number TStatus.cancelled) ∧
    (∀ n, (nextNumber s now).1 = AdvanceResult.advanced n → n ∉ s.cancelledTickets) := by
  refine ⟨?_, ?_, ?_, ?_⟩
  · cases o with
    | issue r i =>
      simp only [applyOp, issueTicket]
      split
      · exact h
      · split
        · exact h
        · cases i
          · exact h
          · intro hmem
            rw [if_pos rfl, List.map_append] at hmem
            rcases List.mem_append.1 hmem with h1 | h1
            · exact h h1
            · simp at h1
    | advance m =>
      show TStatus.serving ∉ ((nextNumber s m).2).tickets.map Prod.snd
      rw [nextNumber_tickets]
      exact h
    | finishServ =>
      simp only [applyOp, finishService]
      split
      · exact h
      · intro hmem
        rcases setStatus_snd_mem s.tickets s.current_number TStatus.called _ hmem with h1 | h1
        · exact absurd h1 (by simp)
        · exact h h1
    | skipOp m =>
      simp only [applyOp, skip]
      split
      · exact h
      · rw [nextNumber_tickets]
        intro hmem
        rcases setStatus_snd_mem s.tickets s.current_number TStatus.cancelled _ hmem with h1 | h1
        · exact absurd h1 (by simp)
        · exact h h1
    | pauseToggle => exact h
    | reset => exact h
    | recallOp m =>
      simp only [applyOp, recallTouch]
      split
      · exact h
      · exact h
    | adminAdvance => exact h
    | adminReset => exact h
  · intro h0
    simp [finishService, h0]
  · intro h0
    simp only [skip, if_neg h0]
    rw [nextNumber_tickets]
  · intro n hn
    obtain ⟨h1, h2, h3⟩ :=
      scanNext_spec s.cancelledTickets s.last_issued_number (s.current_number + 1)
    simp only [nextNumber] at hn
    split at hn
    · exact absurd hn (by simp)
    · simp only [AdvanceResult.advanced.injEq] at hn
      rw [← hn]
      exact h3 (by omega)

/-- C8 witness: the done-button on a concrete serving state introduces no
`serving` status. -/
theorem C8_status_transitions_witness :
    TStatus.serving ∉ (applyOp Op.finishServ
      ⟨2, 3, "ACTIVE", none, [(2, TStatus.waiting), (3, TStatus.waiting)], []⟩).tickets.map
        Prod.snd :=
  (C8_status_transitions Op.finishServ
    ⟨2, 3, "ACTIVE", none, [(2, TStatus.waiting), (3, TStatus.waiting)], []⟩ 0 (by decide)).1

/-- C9: the recall operation leaves the counters, the pause state, the
tickets and the cancelled list unchanged; when a number is being served it
sets only the re-announcement timestamp, and when nothing is served it
changes nothing at all. -/
theorem C9_recall_frame (s : QState) (now : Int) :
    (recallTouch s now).current_number = s.current_number ∧
    (recallTouch s now).last_issued_number = s.last_issued_number ∧
    (recallTouch s now).name = s.name ∧
    isPausedQ (recallTouch s now) = isPausedQ s ∧
    (recallTouch s now).tickets = s.tickets ∧
    (recallTouch s now).cancelledTickets = s.cancelledTickets ∧
    (s.current_number ≠ 0 → (recallTouch s now).last_called_at = some now) ∧
    (s.current_number = 0 → recallTouch s now = s) := by
  unfold recallTouch
  by_cases h0 : s.current_number = 0
  · rw [if_pos h0]
    exact ⟨rfl, rfl, rfl, rfl, rfl, rfl, fun hc => absurd h0 hc, fun _ => rfl⟩
  · rw [if_neg h0]
    exact ⟨rfl, rfl, rfl, rfl, rfl, rfl, fun _ => rfl, fun hc => absurd hc h0⟩

/-- C9 witness: a concrete recall at `current = 2` sets only the timestamp. -/
theorem C9_recall_frame_witness :
    (recallTouch ⟨2, 5, "ACTIVE", some 1, [(2, TStatus.waiting)], []⟩ 9).last_called_at =
      some 9 :=
  (C9_recall_frame ⟨2, 5, "ACTIVE", some 1, [(2, TStatus.waiting)], []⟩ 9).2.2.2.2.2.2.1
    (by decide)

/-- C10: for a held ticket `t` the people-ahead count equals
`max 0 (t - current - 1)` in both customer views (the simple view
additionally short-circuits on a falsy held number, hence `1 ≤ t`); the
count is never negative, is 0 whenever `current ≥ t - 1`, and equals
`t - current - 1` otherwise; with no held ticket it is 0. -/
theorem C10_people_ahead (t c : Int) (h : 1 ≤ t) :
    peopleAheadCount (some t) c = max 0 (t - c - 1) ∧
    peopleAhead (some t) c = max 0 (t - c - 1) ∧
    0 ≤ peopleAheadCount (some t) c ∧
    (t - 1 ≤ c → peopleAheadCount (some t) c = 0) ∧
    (c < t - 1 → peopleAheadCount (some t) c = t - c - 1) ∧
    peopleAheadCount none c = 0 ∧
    peopleAhead none c = 0 := by
  refine ⟨rfl, ?_, le_max_left _ _, fun hc => max_eq_left (by omega),
    fun hc => max_eq_right (by omega), rfl, rfl⟩
  show (if t = 0 then 0 else max 0 (t - c - 1)) = max 0 (t - c - 1)
  rw [if_neg (by omega : ¬ t = 0)]

/-- C10 witness: ticket 5 with current 2 shows 2 people ahead. -/
theorem C10_people_ahead_witness :
    peopleAheadCount (some 5) 2 = 5 - 2 - 1 :=
  (C10_people_ahead 5 2 (by decide)).2.2.2.2.1 (by decide)

end Dawrak
